import Mathlib

/-!
Shallow embedding of the community issue-reporting application's voting and
aggregation core: the issue/vote data model (src/models/Issue.ts), the vote
toggle route, the issue list/create/update routes, and the admin statistics
route.  Machine numbers that the JavaScript source treats as exact integers
are modelled as Int/Nat; geographic coordinates (JavaScript doubles holding
small decimal values) are modelled as exact rationals.
-/

namespace CivicIssues

/-! ## Data model (src/models/Issue.ts schemas) -/

/-- Issue status enum: pending, in-progress, resolved. -/
inductive Status
  | pending
  | inProgress
  | resolved
deriving DecidableEq, Repr

/-- Issue category enum. -/
inductive Category
  | infrastructure
  | sanitation
  | safety
  | environment
  | transportation
  | other
deriving DecidableEq, Repr

/-- Issue priority enum. -/
inductive Priority
  | low
  | medium
  | high
  | urgent
deriving DecidableEq, Repr

/-- Embedded comment subdocument. -/
structure Comment where
  text : String
  author : String
  authorName : String
  createdAt : Nat
deriving DecidableEq, Repr

/-- An Issue document.  Timestamps are abstract naturals.  The `votes`
counter is an Int because the vote route updates it with `$inc`, which can
drive it below zero without re-running the schema validators. -/
structure IssueDoc where
  title : String
  description : String
  category : Category
  status : Status
  priority : Priority
  coordinates : List ℚ
  address : String
  images : List String
  reportedBy : String
  assignedTo : Option String
  votes : Int
  votedBy : List String
  comments : List Comment
  resolvedAt : Option Nat
deriving DecidableEq, Repr

/-- The coordinates validator of `IssueSchema.location.coordinates`:
length two, longitude in [-180,180], latitude in [-90,90]. -/
def validateCoordinates (coords : List ℚ) : Bool :=
  coords.length == 2 &&
    decide (-180 ≤ coords.getD 0 0 ∧ coords.getD 0 0 ≤ 180) &&
    decide (-90 ≤ coords.getD 1 0 ∧ coords.getD 1 0 ≤ 90)

/-- The image URL validator regex of `IssueSchema.images`:
`^https?:\/\/.+\.(jpg|jpeg|png|webp|gif)$` with the case-insensitive flag. -/
def isImageUrl (url : String) : Bool :=
  let t := url.toLower
  let check (pre : String) : Bool :=
    t.startsWith pre &&
      ["jpg", "jpeg", "png", "webp", "gif"].any (fun e =>
        t.endsWith ("." ++ e) && decide (pre.length + e.length + 2 ≤ t.length))
  check "http://" || check "https://"

/-- Document-level schema validation run by mongoose on `save()`:
string length bounds, required fields, coordinate ranges, image URL
patterns, and the `min: 0` validator on `votes`. -/
def docValid (i : IssueDoc) : Bool :=
  decide (5 ≤ i.title.length) && decide (i.title.length ≤ 100) &&
  decide (10 ≤ i.description.length) && decide (i.description.length ≤ 1000) &&
  decide (1 ≤ i.address.length) && decide (i.address.length ≤ 200) &&
  validateCoordinates i.coordinates &&
  i.images.all isImageUrl &&
  decide (0 ≤ i.votes) &&
  i.comments.all (fun c => decide (1 ≤ c.text.length) && decide (c.text.length ≤ 500)) &&
  (i.reportedBy != "")

/-- The `pre('save')` middleware of IssueSchema: when the status path was
modified, a status of resolved with no resolvedAt stamps the current time,
and a status other than resolved clears resolvedAt. -/
def saveHook (i : IssueDoc) (statusModified : Bool) (now : Nat) : IssueDoc :=
  if statusModified then
    if i.status = .resolved ∧ i.resolvedAt = none then
      { i with resolvedAt := some now }
    else if i.status ≠ .resolved then
      { i with resolvedAt := none }
    else i
  else i

/-- `IssueSchema.methods.addVote`: push the user and bump the counter when
the user is not already in votedBy. -/
def addVote (i : IssueDoc) (userId : String) : IssueDoc × Bool :=
  if userId ∈ i.votedBy then (i, false)
  else ({ i with votedBy := i.votedBy ++ [userId], votes := i.votes + 1 }, true)

/-- `IssueSchema.methods.removeVote`: splice out the first occurrence of the
user and decrement the counter when the user is in votedBy. -/
def removeVote (i : IssueDoc) (userId : String) : IssueDoc × Bool :=
  if userId ∈ i.votedBy then
    ({ i with votedBy := i.votedBy.erase userId, votes := i.votes - 1 }, true)
  else (i, false)

/-! ## Vote ledger and toggle service (Vote model + vote route) -/

/-- Outcome of `VoteSchema.statics.toggleVote`. -/
inductive ToggleAction
  | added
  | removed
deriving DecidableEq, Repr

/-- The vote ledger: one `(userId, issueId)` row per vote document.  The
compound unique index on `{userId, issueId}` makes duplicate pairs
impossible in a committed store. -/
abbrev Ledger := List (String × String)

/-- `VoteSchema.statics.toggleVote` under sequential (non-interleaved)
execution: `findOne` then either `deleteOne` (removed) or `create`
(added). -/
def toggleVote (ledger : Ledger) (userId issueId : String) :
    ToggleAction × Ledger :=
  if (userId, issueId) ∈ ledger then (.removed, ledger.erase (userId, issueId))
  else (.added, (userId, issueId) :: ledger)

/-- `VoteSchema.statics.toggleVote` with a concurrent writer: `readLedger`
is the snapshot seen by the initial `findOne`, `writeLedger` the state when
the write executes.  When `create` hits the unique index (error code
11000), the catch branch re-reads and deletes the pair, returning the
removed outcome instead of surfacing the error. -/
def toggleVoteRace (readLedger writeLedger : Ledger) (userId issueId : String) :
    Except Unit (ToggleAction × Ledger) :=
  if (userId, issueId) ∈ readLedger then
    .ok (.removed, writeLedger.erase (userId, issueId))
  else if (userId, issueId) ∈ writeLedger then
    .ok (.removed, writeLedger.erase (userId, issueId))
  else
    .ok (.added, (userId, issueId) :: writeLedger)

/-- MongoDB `$addToSet`: append the element only when absent. -/
def addToSet (l : List String) (a : String) : List String :=
  if a ∈ l then l else l ++ [a]

/-- MongoDB `$pull`: remove every occurrence of the element. -/
def pull (l : List String) (a : String) : List String :=
  l.filter (fun x => x ≠ a)

/-- The issue update inside the vote route's transaction: `$inc votes` by
plus or minus one and `$addToSet`/`$pull` on votedBy, by toggle outcome. -/
def applyVoteAction (act : ToggleAction) (votes : Int) (votedBy : List String)
    (voter : String) : Int × List String :=
  match act with
  | .added => (votes + 1, addToSet votedBy voter)
  | .removed => (votes - 1, pull votedBy voter)

/-- The data object of the vote route's success response. -/
structure VoteResponse where
  issueId : String
  votes : Int
  hasVoted : Bool
deriving DecidableEq, Repr

/-- Full post-state of a vote toggle request. -/
structure VoteRouteResult where
  ledger : Ledger
  votes : Int
  votedBy : List String
  resp : VoteResponse
deriving DecidableEq, Repr

/-- The POST vote route body for an existing issue: toggle the ledger row,
apply the matching counter/votedBy update, and answer with the re-read
issue's counter and the caller's membership in votedBy. -/
def votePost (ledger : Ledger) (votes : Int) (votedBy : List String)
    (voter issueId : String) : VoteRouteResult :=
  let r := toggleVote ledger voter issueId
  let u := applyVoteAction r.1 votes votedBy voter
  { ledger := r.2
    votes := u.1
    votedBy := u.2
    resp := { issueId := issueId, votes := u.1, hasVoted := u.2.contains voter } }

/-- Two vote toggles in immediate succession with no interleaving. -/
def doubleVote (ledger : Ledger) (votes : Int) (votedBy : List String)
    (voter issueId : String) : VoteRouteResult :=
  let r1 := votePost ledger votes votedBy voter issueId
  votePost r1.ledger r1.votes r1.votedBy voter issueId

/-! ## Issue creation route (POST of the issues collection route) -/

/-- The request body's location object. -/
structure LocationInput where
  coordinates : List ℚ
deriving DecidableEq, Repr

/-- The create-issue request body after destructuring.  Empty strings are
falsy in the JavaScript required-field check. -/
structure CreateInput where
  title : String
  description : String
  category : String
  priority : String
  location : Option LocationInput
  address : String
  images : List String
deriving DecidableEq, Repr

/-- Error outcomes of the create-issue route; each is answered with an HTTP
400 envelope. -/
inductive CreateErr
  | missingFields
  | badLocationFormat
  | badCoordinates
  | validationError
deriving DecidableEq, Repr

/-- HTTP status of each create-issue error response. -/
def createErrStatus : CreateErr → Nat
  | .missingFields => 400
  | .badLocationFormat => 400
  | .badCoordinates => 400
  | .validationError => 400

/-- Category enum parsing performed by the schema validator on save. -/
def parseCategory : String → Option Category
  | "infrastructure" => some .infrastructure
  | "sanitation" => some .sanitation
  | "safety" => some .safety
  | "environment" => some .environment
  | "transportation" => some .transportation
  | "other" => some .other
  | _ => none

/-- Priority enum parsing performed by the schema validator on save. -/
def parsePriority : String → Option Priority
  | "low" => some .low
  | "medium" => some .medium
  | "high" => some .high
  | "urgent" => some .urgent
  | _ => none

/-- The POST create-issue route body: required-field check, location format
check, coordinate range check, then construction of a pending issue with
`votes = 0`, `votedBy = []` and a validating save.  The second component is
the issue store after the request. -/
def createIssuePost (store : List IssueDoc) (userId : String) (inp : CreateInput)
    (now : Nat) : Except CreateErr IssueDoc × List IssueDoc :=
  if inp.title == "" || inp.description == "" || inp.category == "" ||
      inp.location.isNone || inp.address == "" then
    (.error .missingFields, store)
  else
    match inp.location with
    | none => (.error .missingFields, store)
    | some loc =>
      if loc.coordinates.length != 2 then (.error .badLocationFormat, store)
      else
        let lng := loc.coordinates.getD 0 0
        let lat := loc.coordinates.getD 1 0
        if decide (lng < -180) || decide (lng > 180) ||
            decide (lat < -90) || decide (lat > 90) then
          (.error .badCoordinates, store)
        else
          match parseCategory inp.category, parsePriority inp.priority with
          | some cat, some pr =>
            let issue : IssueDoc :=
              { title := inp.title.trim
                description := inp.description.trim
                category := cat
                status := .pending
                priority := pr
                coordinates := [lng, lat]
                address := inp.address.trim
                images := inp.images
                reportedBy := userId
                assignedTo := none
                votes := 0
                votedBy := []
                comments := []
                resolvedAt := none }
            if docValid issue then
              (.ok (saveHook issue true now), store ++ [saveHook issue true now])
            else (.error .validationError, store)
          | _, _ => (.error .validationError, store)

/-! ## Issue update route (PUT of the single-issue route) -/

/-- The update request body.  A field holds `none` when absent from (or
falsy in) the JSON payload.  Enum-valued fields are restricted to valid
values: invalid enum strings fail the schema validation on save and leave
the document unchanged.  The `votes`, `votedBy` and `resolvedAt` fields can
appear in the payload but are never destructured by the route. -/
structure UpdateBody where
  title : Option String
  description : Option String
  category : Option Category
  priority : Option Priority
  status : Option Status
  assignedTo : Option (Option String)
  votes : Option Int
  votedBy : Option (List String)
  resolvedAt : Option (Option Nat)
deriving DecidableEq, Repr

/-- The update body with every field absent. -/
def emptyBody : UpdateBody :=
  { title := none, description := none, category := none, priority := none
    status := none, assignedTo := none, votes := none, votedBy := none
    resolvedAt := none }

/-- Error outcomes of the update route. -/
inductive UpdateErr
  | permissionDenied
  | adminOnly
  | validationError
deriving DecidableEq, Repr

/-- `if (title && (isOwner || isAdmin)) issue.title = title.trim()`. -/
def applyTitle (i : IssueDoc) (t? : Option String) (can : Bool) : IssueDoc :=
  match t? with
  | some t => if t != "" && can then { i with title := t.trim } else i
  | none => i

/-- `if (description && (isOwner || isAdmin)) issue.description = description.trim()`. -/
def applyDescription (i : IssueDoc) (d? : Option String) (can : Bool) : IssueDoc :=
  match d? with
  | some d => if d != "" && can then { i with description := d.trim } else i
  | none => i

/-- `if (category && (isOwner || isAdmin)) issue.category = category`. -/
def applyCategory (i : IssueDoc) (c? : Option Category) (can : Bool) : IssueDoc :=
  match c? with
  | some c => if can then { i with category := c } else i
  | none => i

/-- `if (priority && (isOwner || isAdmin)) issue.priority = priority`. -/
def applyPriority (i : IssueDoc) (p? : Option Priority) (can : Bool) : IssueDoc :=
  match p? with
  | some p => if can then { i with priority := p } else i
  | none => i

/-- `if (status && isAdmin) issue.status = status`. -/
def applyStatus (i : IssueDoc) (s? : Option Status) (adm : Bool) : IssueDoc :=
  match s? with
  | some s => if adm then { i with status := s } else i
  | none => i

/-- `if (assignedTo !== undefined && isAdmin) issue.assignedTo = assignedTo || undefined`. -/
def applyAssignedTo (i : IssueDoc) (a? : Option (Option String)) (adm : Bool) : IssueDoc :=
  match a? with
  | some a => if adm then { i with assignedTo := a } else i
  | none => i

/-- Whether the status assignment marks the mongoose status path modified:
a status value was supplied by an admin and differs from the stored one. -/
def statusModifiedBy (i : IssueDoc) (s? : Option Status) (adm : Bool) : Bool :=
  match s? with
  | some s => adm && s != i.status
  | none => false

/-- The PUT update route body for an existing issue: ownership check,
admin-only check for status/assignment, conditional field assignments, then
a validating save which runs the resolvedAt pre-save hook. -/
def updateIssuePut (i : IssueDoc) (body : UpdateBody) (userId : String)
    (adm : Bool) (now : Nat) : Except UpdateErr IssueDoc :=
  let isOwner : Bool := i.reportedBy == userId
  if !isOwner && !adm then .error .permissionDenied
  else
    let statusTruthy : Bool := body.status.isSome
    let assignedTruthy : Bool :=
      match body.assignedTo with
      | some (some _) => true
      | _ => false
    if (statusTruthy || assignedTruthy) && !adm then .error .adminOnly
    else
      let can : Bool := isOwner || adm
      let i1 := applyTitle i body.title can
      let i2 := applyDescription i1 body.description can
      let i3 := applyCategory i2 body.category can
      let i4 := applyPriority i3 body.priority can
      let i5 := applyStatus i4 body.status adm
      let i6 := applyAssignedTo i5 body.assignedTo adm
      if docValid i6 then
        .ok (saveHook i6 (statusModifiedBy i body.status adm) now)
      else .error .validationError

/-! ## Query/filter service and pagination (issues list route) -/

/-- The parsed location filter: `[lng, lat]` plus a radius in kilometers. -/
structure LocationFilter where
  coordinates : List ℚ
  radius : ℚ
deriving DecidableEq, Repr

/-- The filter object the issues list route builds from its search
parameters. -/
structure IssueFilters where
  status : Option String
  category : Option String
  priority : Option String
  sortBy : String
  sortOrder : String
  page : Int
  limit : Int
  search : Option String
  location : Option LocationFilter
deriving DecidableEq, Repr

/-- The dynamic MongoDB filter document assembled by the list route and by
`findWithFilters` (sorting and pagination are applied separately and are
not part of the filter predicate). -/
structure MongoIssueQuery where
  status : Option String
  category : Option String
  priority : Option String
  reportedBy : Option String
  assignedTo : Option String
  textSearch : Option String
  near : Option (List ℚ × ℚ)
deriving DecidableEq, Repr

/-- The filter document of `IssueSchema.statics.findWithFilters`: every
provided filter including the `$near` location clause (radius converted
from kilometers to meters).  The route's filter object carries no
reportedBy/assignedTo entries. -/
def buildFindQuery (f : IssueFilters) : MongoIssueQuery :=
  { status := f.status
    category := f.category
    priority := f.priority
    reportedBy := none
    assignedTo := none
    textSearch := f.search
    near := f.location.map (fun l => (l.coordinates, l.radius * 1000)) }

/-- The separate count-query document the list route builds for pagination:
status, category, priority and text search only. -/
def buildCountQuery (f : IssueFilters) : MongoIssueQuery :=
  { status := f.status
    category := f.category
    priority := f.priority
    reportedBy := none
    assignedTo := none
    textSearch := f.search
    near := none }

/-- The list route's pagination validation: clamp `page < 1` to 1 and a
limit outside `[1, 50]` to the default 10. -/
def validatePagination (page limit : Int) : Int × Int :=
  (if page < 1 then 1 else page,
   if limit < 1 ∨ limit > 50 then 10 else limit)

/-- Pagination metadata of the list route's response. -/
structure PaginationMeta where
  currentPage : Int
  totalPages : Int
  totalItems : Nat
  itemsPerPage : Int
  hasNextPage : Bool
  hasPrevPage : Bool
deriving DecidableEq, Repr

/-- `Math.ceil` over the exact value of the division. -/
def mathCeil (q : ℚ) : Int := ⌈q⌉

/-- The metadata object built by the list route from the count-query result
and the clamped page/limit. -/
def buildPaginationMeta (totalItems : Nat) (page limit : Int) : PaginationMeta :=
  let totalPages := mathCeil ((totalItems : ℚ) / (limit : ℚ))
  { currentPage := page
    totalPages := totalPages
    totalItems := totalItems
    itemsPerPage := limit
    hasNextPage := decide (page < totalPages)
    hasPrevPage := decide (page > 1) }

/-! ## Aggregation service (admin stats route + getDashboardStats) -/

/-- The result of `IssueSchema.statics.getDashboardStats`: counts grouped
by status, rolled into one record. -/
structure DashboardStats where
  totalIssues : Nat
  pendingIssues : Nat
  inProgressIssues : Nat
  resolvedIssues : Nat
deriving DecidableEq, Repr

/-- Status breakdown over the issue store. -/
def getDashboardStats (store : List IssueDoc) : DashboardStats :=
  { totalIssues := store.length
    pendingIssues := (store.filter (fun i => i.status == .pending)).length
    inProgressIssues := (store.filter (fun i => i.status == .inProgress)).length
    resolvedIssues := (store.filter (fun i => i.status == .resolved)).length }

/-- `Math.round` over the exact value: half rounds up. -/
def mathRound (q : ℚ) : Int := ⌊q + 1 / 2⌋

/-- The admin stats route's resolution rate:
`round(resolvedIssues / totalIssues * 100)`, and 0 for an empty store. -/
def resolutionRateOf (store : List IssueDoc) : Int :=
  let s := getDashboardStats store
  if 0 < s.totalIssues then
    mathRound ((s.resolvedIssues : ℚ) / (s.totalIssues : ℚ) * 100)
  else 0

/-! ## Helper lemmas -/

lemma mem_addToSet_self (l : List String) (a : String) : a ∈ addToSet l a := by
  unfold addToSet; split <;> simp_all

lemma addToSet_of_not_mem {l : List String} {a : String} (h : a ∉ l) :
    addToSet l a = l ++ [a] := by
  simp [addToSet, h]

lemma not_mem_pull_self (l : List String) (a : String) : a ∉ pull l a := by
  simp [pull]

lemma pull_append_self {l : List String} {a : String} (h : a ∉ l) :
    pull (l ++ [a]) a = l := by
  simp only [pull, List.filter_append]
  simp only [List.filter_cons, List.filter_nil]
  rw [if_neg (by simp)]
  rw [List.append_nil]
  refine List.filter_eq_self.2 (fun x hx => ?_)
  simp only [Bool.not_eq_true', decide_eq_true_eq, decide_not, Bool.not_eq_false',
    ne_eq, decide_eq_false_iff_not]
  intro hxa
  exact h (hxa ▸ hx)

lemma pull_eq_erase {l : List String} {a : String} (hnd : l.Nodup) :
    pull l a = l.erase a := by
  rw [pull, List.Nodup.erase_eq_filter hnd]
  refine List.filter_congr (fun x _ => ?_)
  by_cases hax : a = x
  · subst hax; simp
  · have hxa : x ≠ a := fun hh => hax hh.symm
    simp [hxa, bne, hax]

lemma length_pull_int {l : List String} {a : String} (h : a ∈ l) (hnd : l.Nodup) :
    ((pull l a).length : Int) = (l.length : Int) - 1 := by
  rw [pull_eq_erase hnd, List.length_erase_of_mem h]
  have := List.length_pos.2 (List.ne_nil_of_mem h)
  omega

lemma mem_pull_iff (l : List String) (a x : String) :
    x ∈ pull l a ↔ x ∈ l ∧ x ≠ a := by
  simp [pull]

lemma pull_nodup {l : List String} {a : String} (hnd : l.Nodup) :
    (pull l a).Nodup :=
  hnd.filter _

lemma contains_iff_mem (l : List String) (a : String) :
    l.contains a = true ↔ a ∈ l := by
  simp [List.contains_iff_exists_mem_beq, beq_iff_eq, eq_comm]

/-! ## Claim theorems -/

/-- C1: toggling a vote with no prior ledger row records the row, adds one
to the counter and puts the voter into votedBy; toggling with a prior row
deletes the row, subtracts one from the counter and removes the voter; in
both cases the response carries the issue id, the new counter, and
hasVoted equal to the voter's membership in votedBy. -/
theorem vote_toggle_functional (ledger : Ledger) (votes : Int) (votedBy : List String)
    (voter issueId : String) (hnd : ledger.Nodup) :
    ((voter, issueId) ∉ ledger →
      (voter, issueId) ∈ (votePost ledger votes votedBy voter issueId).ledger ∧
      (votePost ledger votes votedBy voter issueId).votes = votes + 1 ∧
      voter ∈ (votePost ledger votes votedBy voter issueId).votedBy) ∧
    ((voter, issueId) ∈ ledger →
      (voter, issueId) ∉ (votePost ledger votes votedBy voter issueId).ledger ∧
      (votePost ledger votes votedBy voter issueId).votes = votes - 1 ∧
      voter ∉ (votePost ledger votes votedBy voter issueId).votedBy) ∧
    (votePost ledger votes votedBy voter issueId).resp.issueId = issueId ∧
    (votePost ledger votes votedBy voter issueId).resp.votes
      = (votePost ledger votes votedBy voter issueId).votes ∧
    ((votePost ledger votes votedBy voter issueId).resp.hasVoted = true ↔
      voter ∈ (votePost ledger votes votedBy voter issueId).votedBy) := by
  by_cases hmem : (voter, issueId) ∈ ledger
  · refine ⟨fun h => absurd hmem h, fun _ => ?_, ?_, ?_, ?_⟩
    · simp only [votePost, toggleVote, if_pos hmem, applyVoteAction]
      exact ⟨hnd.not_mem_erase, trivial, not_mem_pull_self _ _⟩
    · rfl
    · rfl
    · simp only [votePost, toggleVote, if_pos hmem, applyVoteAction]
      exact contains_iff_mem _ _
  · refine ⟨fun _ => ?_, fun h => absurd h hmem, ?_, ?_, ?_⟩
    · simp only [votePost, toggleVote, if_neg hmem, applyVoteAction]
      exact ⟨List.mem_cons_self _ _, trivial, mem_addToSet_self _ _⟩
    · rfl
    · rfl
    · simp only [votePost, toggleVote, if_neg hmem, applyVoteAction]
      exact contains_iff_mem _ _

/-- Witness for C1 at a concrete state with one prior vote by another user. -/
theorem vote_toggle_functional_witness :
    (votePost [("u1", "i1")] 1 ["u1"] "u2" "i1").votes = 2 :=
  ((vote_toggle_functional [("u1", "i1")] 1 ["u1"] "u2" "i1"
    (by simp)).1 (by simp)).2.1

lemma votePost_of_mem {ledger : Ledger} {voter issueId : String}
    (votes : Int) (votedBy : List String)
    (hmem : (voter, issueId) ∈ ledger) :
    votePost ledger votes votedBy voter issueId =
      { ledger := ledger.erase (voter, issueId)
        votes := votes - 1
        votedBy := pull votedBy voter
        resp := { issueId := issueId, votes := votes - 1,
                  hasVoted := (pull votedBy voter).contains voter } } := by
  simp [votePost, toggleVote, hmem, applyVoteAction]

lemma votePost_of_not_mem {ledger : Ledger} {voter issueId : String}
    (votes : Int) (votedBy : List String)
    (hmem : (voter, issueId) ∉ ledger) :
    votePost ledger votes votedBy voter issueId =
      { ledger := (voter, issueId) :: ledger
        votes := votes + 1
        votedBy := addToSet votedBy voter
        resp := { issueId := issueId, votes := votes + 1,
                  hasVoted := (addToSet votedBy voter).contains voter } } := by
  simp [votePost, toggleVote, hmem, applyVoteAction]

/-- C2: toggling twice in immediate succession with no interleaving returns
the issue to its original votes counter and votedBy set, and leaves no
ledger row for the pair when none existed initially (stated on states
satisfying the ledger uniqueness constraint and consistency between
votedBy and the ledger). -/
theorem double_toggle_restores (ledger : Ledger) (votes : Int)
    (votedBy : List String) (voter issueId : String)
    (hnd : ledger.Nodup) (hvnd : votedBy.Nodup)
    (hcons : voter ∈ votedBy ↔ (voter, issueId) ∈ ledger) :
    (doubleVote ledger votes votedBy voter issueId).votes = votes ∧
    (∀ u, u ∈ (doubleVote ledger votes votedBy voter issueId).votedBy ↔ u ∈ votedBy) ∧
    ((voter, issueId) ∉ ledger →
      (doubleVote ledger votes votedBy voter issueId).ledger = ledger ∧
      (doubleVote ledger votes votedBy voter issueId).votedBy = votedBy ∧
      (voter, issueId) ∉ (doubleVote ledger votes votedBy voter issueId).ledger) := by
  by_cases hmem : (voter, issueId) ∈ ledger
  · have hv : voter ∈ votedBy := hcons.mpr hmem
    have h2 : (voter, issueId) ∉ ledger.erase (voter, issueId) := hnd.not_mem_erase
    have h3 : voter ∉ pull votedBy voter := not_mem_pull_self _ _
    simp only [doubleVote, votePost_of_mem votes votedBy hmem]
    rw [votePost_of_not_mem (votes - 1) (pull votedBy voter) h2]
    refine ⟨by ring_nf, fun u => ?_, fun h => absurd hmem h⟩
    rw [addToSet_of_not_mem h3]
    simp only [List.mem_append, mem_pull_iff, List.mem_singleton]
    constructor
    · rintro (⟨h4, _⟩ | rfl)
      · exact h4
      · exact hv
    · intro hu
      by_cases huv : u = voter
      · exact Or.inr huv
      · exact Or.inl ⟨hu, huv⟩
  · have hv : voter ∉ votedBy := fun h => hmem (hcons.mp h)
    simp only [doubleVote, votePost_of_not_mem votes votedBy hmem]
    rw [addToSet_of_not_mem hv]
    rw [votePost_of_mem (votes + 1) (votedBy ++ [voter])
      (List.mem_cons_self _ _)]
    rw [List.erase_cons_head, pull_append_self hv]
    exact ⟨by ring_nf, fun u => Iff.rfl, fun _ => ⟨rfl, rfl, hmem⟩⟩

/-- Witness for C2 at an initially empty state. -/
theorem double_toggle_restores_witness :
    (doubleVote [] 0 [] "u1" "i1").votes = 0 :=
  (double_toggle_restores [] 0 [] "u1" "i1" (by simp) (by simp) (by simp)).1

/-- C5: when the ledger insert during a toggle hits the uniqueness
constraint for the pair (the pair is present at write time although the
initial read saw no vote), the service returns the removed outcome with the
pair deleted from the ledger, the route decrements the counter and pulls
the voter, and no error is surfaced. -/
theorem dup_key_compensation (readLedger writeLedger : Ledger)
    (votes : Int) (votedBy : List String) (voter issueId : String)
    (hr : (voter, issueId) ∉ readLedger)
    (hw : (voter, issueId) ∈ writeLedger)
    (hnd : writeLedger.Nodup) :
    toggleVoteRace readLedger writeLedger voter issueId =
      .ok (.removed, writeLedger.erase (voter, issueId)) ∧
    (voter, issueId) ∉ writeLedger.erase (voter, issueId) ∧
    (applyVoteAction .removed votes votedBy voter).1 = votes - 1 ∧
    (applyVoteAction .removed votes votedBy voter).2 = pull votedBy voter ∧
    voter ∉ (applyVoteAction .removed votes votedBy voter).2 := by
  refine ⟨?_, hnd.not_mem_erase, rfl, rfl, not_mem_pull_self _ _⟩
  simp [toggleVoteRace, hr, hw]

/-- Witness for C5 with a racing insert of the same pair. -/
theorem dup_key_compensation_witness :
    toggleVoteRace [] [("u1", "i1")] "u1" "i1" =
      .ok (.removed, ([("u1", "i1")] : Ledger).erase ("u1", "i1")) :=
  (dup_key_compensation [] [("u1", "i1")] 3 ["u1"] "u1" "i1"
    (by simp) (by simp) (by simp)).1

/-- C7: out-of-range page and limit values are clamped to 1 and to the
default 10 respectively rather than rejected, in-range values pass through,
and the clamped values always lie in range. -/
theorem pagination_clamping (page limit : Int) :
    1 ≤ (validatePagination page limit).1 ∧
    1 ≤ (validatePagination page limit).2 ∧
    (validatePagination page limit).2 ≤ 50 ∧
    (page < 1 → (validatePagination page limit).1 = 1) ∧
    (1 ≤ page → (validatePagination page limit).1 = page) ∧
    ((limit < 1 ∨ 50 < limit) → (validatePagination page limit).2 = 10) ∧
    (1 ≤ limit → limit ≤ 50 → (validatePagination page limit).2 = limit) := by
  unfold validatePagination
  split <;> split <;> simp_all <;> omega

/-- Witness for C7 at out-of-range inputs. -/
theorem pagination_clamping_witness :
    (validatePagination 0 60).1 = 1 ∧ (validatePagination 0 60).2 = 10 :=
  ⟨(pagination_clamping 0 60).2.2.2.1 (by decide),
   (pagination_clamping 0 60).2.2.2.2.2.1 (Or.inr (by decide))⟩

lemma applyTitle_preserves (i : IssueDoc) (t? : Option String) (c : Bool) :
    (applyTitle i t? c).votes = i.votes ∧ (applyTitle i t? c).votedBy = i.votedBy ∧
    (applyTitle i t? c).status = i.status ∧ (applyTitle i t? c).resolvedAt = i.resolvedAt := by
  cases t? with
  | none => exact ⟨rfl, rfl, rfl, rfl⟩
  | some t => by_cases hc : (t != "" && c) = true <;> simp [applyTitle, hc]

lemma applyDescription_preserves (i : IssueDoc) (d? : Option String) (c : Bool) :
    (applyDescription i d? c).votes = i.votes ∧ (applyDescription i d? c).votedBy = i.votedBy ∧
    (applyDescription i d? c).status = i.status ∧
    (applyDescription i d? c).resolvedAt = i.resolvedAt := by
  cases d? with
  | none => exact ⟨rfl, rfl, rfl, rfl⟩
  | some d => by_cases hc : (d != "" && c) = true <;> simp [applyDescription, hc]

lemma applyCategory_preserves (i : IssueDoc) (c? : Option Category) (c : Bool) :
    (applyCategory i c? c).votes = i.votes ∧ (applyCategory i c? c).votedBy = i.votedBy ∧
    (applyCategory i c? c).status = i.status ∧
    (applyCategory i c? c).resolvedAt = i.resolvedAt := by
  cases c? with
  | none => exact ⟨rfl, rfl, rfl, rfl⟩
  | some v => by_cases hc : c = true <;> simp [applyCategory, hc]

lemma applyPriority_preserves (i : IssueDoc) (p? : Option Priority) (c : Bool) :
    (applyPriority i p? c).votes = i.votes ∧ (applyPriority i p? c).votedBy = i.votedBy ∧
    (applyPriority i p? c).status = i.status ∧
    (applyPriority i p? c).resolvedAt = i.resolvedAt := by
  cases p? with
  | none => exact ⟨rfl, rfl, rfl, rfl⟩
  | some v => by_cases hc : c = true <;> simp [applyPriority, hc]

lemma applyStatus_preserves (i : IssueDoc) (s? : Option Status) (adm : Bool) :
    (applyStatus i s? adm).votes = i.votes ∧ (applyStatus i s? adm).votedBy = i.votedBy ∧
    (applyStatus i s? adm).resolvedAt = i.resolvedAt := by
  cases s? with
  | none => exact ⟨rfl, rfl, rfl⟩
  | some v => by_cases hc : adm = true <;> simp [applyStatus, hc]

lemma applyAssignedTo_preserves (i : IssueDoc) (a? : Option (Option String)) (adm : Bool) :
    (applyAssignedTo i a? adm).votes = i.votes ∧
    (applyAssignedTo i a? adm).votedBy = i.votedBy ∧
    (applyAssignedTo i a? adm).status = i.status ∧
    (applyAssignedTo i a? adm).resolvedAt = i.resolvedAt := by
  cases a? with
  | none => exact ⟨rfl, rfl, rfl, rfl⟩
  | some v => by_cases hc : adm = true <;> simp [applyAssignedTo, hc]

lemma saveHook_preserves (i : IssueDoc) (m : Bool) (now : Nat) :
    (saveHook i m now).votes = i.votes ∧ (saveHook i m now).votedBy = i.votedBy ∧
    (saveHook i m now).status = i.status := by
  unfold saveHook
  split
  · split
    · exact ⟨rfl, rfl, rfl⟩
    · split
      · exact ⟨rfl, rfl, rfl⟩
      · exact ⟨rfl, rfl, rfl⟩
  · exact ⟨rfl, rfl, rfl⟩

lemma updateIssuePut_ok_fields {i : IssueDoc} {body : UpdateBody} {userId : String}
    {adm : Bool} {now : Nat} {u : IssueDoc}
    (h : updateIssuePut i body userId adm now = .ok u) :
    u.votes = i.votes ∧ u.votedBy = i.votedBy := by
  simp only [updateIssuePut] at h
  split at h
  · exact absurd h (by simp)
  · split at h
    · exact absurd h (by simp)
    · split at h
      · injection h with h
        subst h
        refine ⟨?_, ?_⟩
        · rw [(saveHook_preserves _ _ _).1, (applyAssignedTo_preserves _ _ _).1,
            (applyStatus_preserves _ _ _).1, (applyPriority_preserves _ _ _).1,
            (applyCategory_preserves _ _ _).1, (applyDescription_preserves _ _ _).1,
            (applyTitle_preserves _ _ _).1]
        · rw [(saveHook_preserves _ _ _).2.1, (applyAssignedTo_preserves _ _ _).2.1,
            (applyStatus_preserves _ _ _).2.1, (applyPriority_preserves _ _ _).2.1,
            (applyCategory_preserves _ _ _).2.1, (applyDescription_preserves _ _ _).2.1,
            (applyTitle_preserves _ _ _).2.1]
      · exact absurd h (by simp)

lemma createIssuePost_ok {store : List IssueDoc} {reporter : String}
    {inp : CreateInput} {now : Nat} {issue : IssueDoc}
    (h : (createIssuePost store reporter inp now).1 = .ok issue) :
    issue.votes = 0 ∧ issue.votedBy = [] := by
  simp only [createIssuePost] at h
  split at h
  · exact absurd h (by simp)
  · split at h
    · exact absurd h (by simp)
    · split at h
      · exact absurd h (by simp)
      · split at h
        · exact absurd h (by simp)
        · split at h
          · split at h
            · injection h with h
              subst h
              exact ⟨by rw [(saveHook_preserves _ _ _).1],
                by rw [(saveHook_preserves _ _ _).2.1]⟩
            · exact absurd h (by simp)
          · exact absurd h (by simp)

/-- A schema-valid issue document with a given status, used as a concrete
test fixture. -/
def mkStatusIssue (st : Status) : IssueDoc :=
  { title := "Sample issue title"
    description := "Sample description text"
    category := .other
    status := st
    priority := .medium
    coordinates := [0, 0]
    address := "Main Street 1"
    images := []
    reportedBy := "user1"
    assignedTo := none
    votes := 0
    votedBy := []
    comments := []
    resolvedAt := if st = .resolved then some 0 else none }

/-- A well-formed create request used as a concrete test fixture. -/
def sampleInput : CreateInput :=
  { title := "Big pothole here"
    description := "A big pothole on the road"
    category := "infrastructure"
    priority := "medium"
    location := some { coordinates := [10, 20] }
    address := "5th Avenue"
    images := [] }

/-- C3: after issue creation, after a vote toggle, and after an issue
update, the votes counter equals the cardinality of votedBy, and votedBy
has no duplicate identity (the toggle case is stated on states already
satisfying the invariant and ledger consistency); the guarded
addVote/removeVote document methods preserve the invariant as well. -/
theorem votes_equal_votedBy_card
    (store : List IssueDoc) (reporter : String) (inp : CreateInput) (now : Nat)
    (issue : IssueDoc) (ledger : Ledger) (votes : Int) (votedBy : List String)
    (voter issueId : String) (i : IssueDoc) (body : UpdateBody)
    (userId : String) (adm : Bool) (u : IssueDoc) :
    ((createIssuePost store reporter inp now).1 = .ok issue →
      issue.votes = (issue.votedBy.length : Int) ∧ issue.votedBy.Nodup) ∧
    ((voter ∈ votedBy ↔ (voter, issueId) ∈ ledger) →
      votes = (votedBy.length : Int) → votedBy.Nodup →
      (votePost ledger votes votedBy voter issueId).votes =
        ((votePost ledger votes votedBy voter issueId).votedBy.length : Int) ∧
      (votePost ledger votes votedBy voter issueId).votedBy.Nodup) ∧
    (updateIssuePut i body userId adm now = .ok u →
      i.votes = (i.votedBy.length : Int) → i.votedBy.Nodup →
      u.votes = (u.votedBy.length : Int) ∧ u.votedBy.Nodup) ∧
    (i.votes = (i.votedBy.length : Int) → i.votedBy.Nodup →
      ((addVote i voter).1.votes = ((addVote i voter).1.votedBy.length : Int) ∧
        (addVote i voter).1.votedBy.Nodup) ∧
      ((removeVote i voter).1.votes = ((removeVote i voter).1.votedBy.length : Int) ∧
        (removeVote i voter).1.votedBy.Nodup)) := by
  refine ⟨?_, ?_, ?_, ?_⟩
  · intro h
    obtain ⟨h1, h2⟩ := createIssuePost_ok h
    rw [h1, h2]
    simp
  · intro hcons hlen hnd2
    by_cases hmem : (voter, issueId) ∈ ledger
    · have hv : voter ∈ votedBy := hcons.mpr hmem
      rw [votePost_of_mem votes votedBy hmem]
      refine ⟨?_, pull_nodup hnd2⟩
      show votes - 1 = ((pull votedBy voter).length : Int)
      rw [length_pull_int hv hnd2]
      omega
    · have hv : voter ∉ votedBy := fun h => hmem (hcons.mp h)
      rw [votePost_of_not_mem votes votedBy hmem, addToSet_of_not_mem hv]
      constructor
      · show votes + 1 = (((votedBy ++ [voter]).length : Nat) : Int)
        simp only [List.length_append, List.length_singleton]
        push_cast
        omega
      · simp [List.nodup_append, hnd2, hv]
  · intro h hlen hnd2
    obtain ⟨hv, hb⟩ := updateIssuePut_ok_fields h
    rw [hv, hb]
    exact ⟨hlen, hnd2⟩
  · intro hlen hnd2
    constructor
    · by_cases hm : voter ∈ i.votedBy
      · simp only [addVote, if_pos hm]
        exact ⟨hlen, hnd2⟩
      · simp only [addVote, if_neg hm]
        constructor
        · show i.votes + 1 = (((i.votedBy ++ [voter]).length : Nat) : Int)
          simp only [List.length_append, List.length_singleton]
          push_cast
          omega
        · simp [List.nodup_append, hnd2, hm]
    · by_cases hm : voter ∈ i.votedBy
      · simp only [removeVote, if_pos hm]
        constructor
        · show i.votes - 1 = (((i.votedBy.erase voter).length : Nat) : Int)
          rw [List.length_erase_of_mem hm]
          have := List.length_pos.2 (List.ne_nil_of_mem hm)
          push_cast [Nat.cast_sub this]
          omega
        · exact hnd2.erase voter
      · simp only [removeVote, if_neg hm]
        exact ⟨hlen, hnd2⟩

/-- Witness for C3 at a concrete empty state. -/
theorem votes_equal_votedBy_card_witness :
    (votePost [] 0 [] "u1" "i1").votes =
      ((votePost [] 0 [] "u1" "i1").votedBy.length : Int) :=
  ((votes_equal_votedBy_card [] "user1" sampleInput 0 (mkStatusIssue .pending)
      [] 0 [] "u1" "i1" (mkStatusIssue .pending) emptyBody "user1" true
      (mkStatusIssue .pending)).2.1 (by simp) (by simp) (by simp)).1

lemma statusModified_iff (i j4 : IssueDoc) (s? : Option Status) (adm : Bool)
    (h4 : j4.status = i.status) :
    statusModifiedBy i s? adm = true ↔ (applyStatus j4 s? adm).status ≠ i.status := by
  cases s? with
  | none => simp [statusModifiedBy, applyStatus, h4]
  | some s =>
    by_cases hadm : adm = true <;>
      simp [statusModifiedBy, applyStatus, hadm, h4, bne_iff_ne]

lemma saveHook_spec (j : IssueDoc) (m : Bool) (now : Nat)
    (istatus : Status) (ira : Option Nat)
    (hmm : m = true ↔ j.status ≠ istatus)
    (hra : j.resolvedAt = ira)
    (hinv : ira.isSome ↔ istatus = .resolved) :
    ((saveHook j m now).resolvedAt.isSome ↔ (saveHook j m now).status = .resolved) ∧
    ((saveHook j m now).status = .resolved → istatus ≠ .resolved →
      (saveHook j m now).resolvedAt = some now) ∧
    ((saveHook j m now).status ≠ .resolved → (saveHook j m now).resolvedAt = none) := by
  cases m with
  | false =>
    have hst : j.status = istatus := by
      by_contra hc
      exact absurd (hmm.mpr hc) (by simp)
    simp only [saveHook, Bool.false_eq_true, if_false]
    refine ⟨by rw [hra, hst]; exact hinv, fun h1 h2 => absurd (hst ▸ h1) h2, fun h1 => ?_⟩
    rw [hra]
    have hno : ¬ ira.isSome = true := fun hs => h1 (hst.trans (hinv.mp hs) )
    exact Option.not_isSome_iff_eq_none.mp hno
  | true =>
    have hst : j.status ≠ istatus := hmm.mp rfl
    simp only [saveHook, if_true]
    by_cases h1 : j.status = Status.resolved ∧ j.resolvedAt = none
    · rw [if_pos h1]
      refine ⟨by simp [h1.1], fun _ _ => by simp, fun hc => absurd h1.1 hc⟩
    · rw [if_neg h1]
      by_cases h2 : j.status ≠ Status.resolved
      · rw [if_pos h2]
        exact ⟨by simp [h2], fun hc => absurd hc h2, fun _ => by simp⟩
      · exfalso
        push_neg at h2
        have hne : j.resolvedAt ≠ none := fun hn => h1 ⟨h2, hn⟩
        have : ira.isSome = true := by
          rw [← hra]
          exact Option.isSome_iff_ne_none.mpr hne
        exact hst (h2.trans (hinv.mp this).symm)

/-- C4: after a status mutation through the update route, resolvedAt is
non-null iff the status is resolved; a transition into resolved stamps the
current time and a transition out of resolved clears it. -/
theorem resolvedAt_iff_resolved
    (i : IssueDoc) (body : UpdateBody) (userId : String) (adm : Bool)
    (now : Nat) (u : IssueDoc)
    (hinv : i.resolvedAt.isSome ↔ i.status = .resolved)
    (h : updateIssuePut i body userId adm now = .ok u) :
    (u.resolvedAt.isSome ↔ u.status = .resolved) ∧
    (u.status = .resolved → i.status ≠ .resolved → u.resolvedAt = some now) ∧
    (u.status ≠ .resolved → u.resolvedAt = none) := by
  simp only [updateIssuePut] at h
  split at h
  · exact absurd h (by simp)
  · split at h
    · exact absurd h (by simp)
    · split at h
      · injection h with h
        subst h
        refine saveHook_spec _ _ _ i.status i.resolvedAt ?_ ?_ hinv
        · rw [(applyAssignedTo_preserves _ _ _).2.2.1]
          refine statusModified_iff i _ body.status adm ?_
          rw [(applyPriority_preserves _ _ _).2.2.1, (applyCategory_preserves _ _ _).2.2.1,
            (applyDescription_preserves _ _ _).2.2.1, (applyTitle_preserves _ _ _).2.2.1]
        · rw [(applyAssignedTo_preserves _ _ _).2.2.2, (applyStatus_preserves _ _ _).2.2,
            (applyPriority_preserves _ _ _).2.2.2, (applyCategory_preserves _ _ _).2.2.2,
            (applyDescription_preserves _ _ _).2.2.2, (applyTitle_preserves _ _ _).2.2.2]
      · exact absurd h (by simp)

/-- A pending, schema-valid issue used to exercise the update route. -/
def c4Issue : IssueDoc := mkStatusIssue .pending

/-- An update payload that moves the status to resolved. -/
def c4Body : UpdateBody := { emptyBody with status := some .resolved }

/-- The document produced by that update. -/
def c4Updated : IssueDoc := { c4Issue with status := .resolved, resolvedAt := some 7 }

/-- Witness for C4: the pending-to-resolved transition stamps resolvedAt. -/
theorem resolvedAt_iff_resolved_witness :
    c4Updated.resolvedAt = some 7 :=
  (resolvedAt_iff_resolved c4Issue c4Body "user1" true 7 c4Updated
      (by simp [c4Issue, mkStatusIssue]) (by rfl)).2.1
    (by rfl) (by simp [c4Issue, mkStatusIssue])

/-- Counterexample to C10 as stated: an update payload that carries both a
status change and a resolvedAt value leaves votes and votedBy unchanged,
but resolvedAt after the update (stamped by the pre-save hook) differs from
its value before, so the three fields do not all keep their prior values
for every payload. -/
theorem system_fields_counterexample :
    updateIssuePut (mkStatusIssue .pending)
        { emptyBody with status := some .resolved, resolvedAt := some (some 999) }
        "user1" true 5 =
      .ok { mkStatusIssue .pending with status := .resolved, resolvedAt := some 5 } ∧
    (mkStatusIssue .pending).resolvedAt = none ∧
    ({ mkStatusIssue .pending with
        status := Status.resolved, resolvedAt := some 5 } : IssueDoc).resolvedAt ≠
      (mkStatusIssue .pending).resolvedAt := by
  refine ⟨rfl, rfl, ?_⟩
  simp [mkStatusIssue]

/-- C10 (amended): the payload's votes, votedBy and resolvedAt values are
ignored by the update route — the outcome is identical for any values of
those payload fields — votes and votedBy always keep their prior values,
and resolvedAt keeps its prior value whenever the payload does not change
the status. -/
theorem system_fields_ignored
    (i : IssueDoc) (body : UpdateBody) (userId : String) (adm : Bool) (now : Nat)
    (v : Option Int) (vb : Option (List String)) (ra : Option (Option Nat))
    (u : IssueDoc) :
    updateIssuePut i { body with votes := v, votedBy := vb, resolvedAt := ra }
        userId adm now =
      updateIssuePut i body userId adm now ∧
    (updateIssuePut i body userId adm now = .ok u →
      u.votes = i.votes ∧ u.votedBy = i.votedBy ∧
      (statusModifiedBy i body.status adm = false → u.resolvedAt = i.resolvedAt)) := by
  refine ⟨rfl, fun h => ?_⟩
  obtain ⟨hv, hb⟩ := updateIssuePut_ok_fields h
  refine ⟨hv, hb, fun hmod => ?_⟩
  simp only [updateIssuePut] at h
  split at h
  · exact absurd h (by simp)
  · split at h
    · exact absurd h (by simp)
    · split at h
      · injection h with h
        subst h
        rw [hmod]
        simp only [saveHook, Bool.false_eq_true, if_false]
        rw [(applyAssignedTo_preserves _ _ _).2.2.2, (applyStatus_preserves _ _ _).2.2,
          (applyPriority_preserves _ _ _).2.2.2, (applyCategory_preserves _ _ _).2.2.2,
          (applyDescription_preserves _ _ _).2.2.2, (applyTitle_preserves _ _ _).2.2.2]
      · exact absurd h (by simp)

/-- Witness for C10 (amended): a payload smuggling votes, votedBy and
resolvedAt produces exactly the outcome of the same payload without them. -/
theorem system_fields_ignored_witness :
    updateIssuePut (mkStatusIssue .inProgress)
        { emptyBody with
          votes := some 99, votedBy := some ["x"], resolvedAt := some (some 3) }
        "user1" true 2 =
      updateIssuePut (mkStatusIssue .inProgress) emptyBody "user1" true 2 :=
  (system_fields_ignored (mkStatusIssue .inProgress) emptyBody "user1" true 2
    (some 99) (some ["x"]) (some (some 3)) (mkStatusIssue .inProgress)).1

/-- A create request whose longitude 200 is out of range. -/
def c9Input : CreateInput :=
  { title := "Big pothole here"
    description := "A big pothole on the road"
    category := "infrastructure"
    priority := "medium"
    location := some { coordinates := [200, 45] }
    address := "5th Avenue"
    images := [] }

/-- C9: every creation whose coordinates fall outside longitude [-180,180]
or latitude [-90,90] fails and leaves the issue store unchanged; when the
remaining required fields are present it fails specifically with the
coordinate-validation error (a 400 validation response), and the schema
coordinate validator also rejects any such pair. -/
theorem create_rejects_bad_coordinates
    (store : List IssueDoc) (userId : String) (inp : CreateInput) (now : Nat)
    (lng lat : ℚ) (loc : LocationInput)
    (hloc : inp.location = some loc)
    (hcoords : loc.coordinates = [lng, lat])
    (hout : lng < -180 ∨ lng > 180 ∨ lat < -90 ∨ lat > 90) :
    (∃ e, createIssuePost store userId inp now = (.error e, store)) ∧
    (inp.title ≠ "" → inp.description ≠ "" → inp.category ≠ "" → inp.address ≠ "" →
      createIssuePost store userId inp now = (.error .badCoordinates, store)) ∧
    validateCoordinates [lng, lat] = false ∧
    createErrStatus .badCoordinates = 400 := by
  have hval : validateCoordinates [lng, lat] = false := by
    rcases hout with h | h | h | h <;>
      simp [validateCoordinates, not_le.mpr h]
  by_cases h1 : (inp.title == "" || inp.description == "" || inp.category == "" ||
      inp.location.isNone || inp.address == "") = true
  · have hroute : createIssuePost store userId inp now = (.error .missingFields, store) := by
      simp only [createIssuePost, if_pos h1]
    refine ⟨⟨.missingFields, hroute⟩, fun ht hd hc ha => ?_, hval, rfl⟩
    have hT : (inp.title == "") = false := by simp [ht]
    have hD : (inp.description == "") = false := by simp [hd]
    have hC : (inp.category == "") = false := by simp [hc]
    have hA : (inp.address == "") = false := by simp [ha]
    have hL : inp.location.isNone = false := by rw [hloc]; rfl
    rw [hT, hD, hC, hA, hL] at h1
    simp at h1
  · rw [hloc] at h1
    have hcond2 : (decide (([lng, lat] : List ℚ).getD 0 0 < -180) ||
        decide (([lng, lat] : List ℚ).getD 0 0 > 180) ||
        decide (([lng, lat] : List ℚ).getD 1 0 < -90) ||
        decide (([lng, lat] : List ℚ).getD 1 0 > 90)) = true := by
      simp only [List.getD_cons_zero, List.getD_cons_succ]
      rcases hout with h | h | h | h <;> simp [h]
    have hroute : createIssuePost store userId inp now = (.error .badCoordinates, store) := by
      simp only [createIssuePost, hloc, hcoords]
      rw [if_neg h1]
      rw [if_neg (show ¬((([lng, lat] : List ℚ).length != 2) = true) by simp)]
      rw [if_pos hcond2]
    exact ⟨⟨.badCoordinates, hroute⟩, fun _ _ _ _ => hroute, hval, rfl⟩

/-- Witness for C9 at the spec scenario: a request with coordinates
[200, 45] is rejected with the coordinate error and the store is kept. -/
theorem create_rejects_bad_coordinates_witness :
    createIssuePost [] "user1" c9Input 0 = (.error .badCoordinates, []) :=
  ((create_rejects_bad_coordinates [] "user1" c9Input 0 200 45
      { coordinates := [200, 45] } rfl rfl
      (Or.inr (Or.inl (by decide)))).2.1)
    (by decide) (by decide) (by decide) (by decide)

/-- C8: the resolution rate is 0 on an empty store, equals
round(resolved / total * 100) on a non-empty store, and a store with 6
resolved and 4 pending issues yields the rate 60. -/
theorem resolution_rate_correct (store : List IssueDoc) :
    ((getDashboardStats store).totalIssues = 0 → resolutionRateOf store = 0) ∧
    (0 < (getDashboardStats store).totalIssues →
      resolutionRateOf store =
        mathRound (((getDashboardStats store).resolvedIssues : ℚ) /
          ((getDashboardStats store).totalIssues : ℚ) * 100)) ∧
    resolutionRateOf (List.replicate 6 (mkStatusIssue .resolved) ++
      List.replicate 4 (mkStatusIssue .pending)) = 60 := by
  refine ⟨fun h => by simp [resolutionRateOf, h], fun h => by simp [resolutionRateOf, h], ?_⟩
  have hstats :
      getDashboardStats (List.replicate 6 (mkStatusIssue .resolved) ++
        List.replicate 4 (mkStatusIssue .pending)) =
      { totalIssues := 10, pendingIssues := 4, inProgressIssues := 0,
        resolvedIssues := 6 } := by rfl
  simp only [resolutionRateOf, hstats]
  norm_num
  rw [mathRound, show (60 : ℚ) + 1 / 2 = 121 / 2 by norm_num, Int.floor_eq_iff]
  norm_num

/-- Witness for C8 at the concrete ten-issue store of the spec scenario. -/
theorem resolution_rate_correct_witness :
    resolutionRateOf (List.replicate 6 (mkStatusIssue .resolved) ++
      List.replicate 4 (mkStatusIssue .pending)) = 60 :=
  (resolution_rate_correct []).2.2

lemma ceil_natCast_div (N L : ℕ) (hL : 0 < L) :
    ⌈(N : ℚ) / (L : ℚ)⌉ = (((N + L - 1) / L : ℕ) : ℤ) := by
  have hdm := Nat.div_add_mod (N + L - 1) L
  have hmlt : (N + L - 1) % L < L := Nat.mod_lt _ hL
  set k := (N + L - 1) / L with hk
  set m := (N + L - 1) % L with hm
  have key : L * k + m + 1 = N + L := by omega
  have hLQ : (0 : ℚ) < (L : ℚ) := by exact_mod_cast hL
  have hcast : (L : ℚ) * (k : ℚ) + (m : ℚ) + 1 = (N : ℚ) + (L : ℚ) := by
    exact_mod_cast key
  have hm0 : (0 : ℚ) ≤ (m : ℚ) := by positivity
  have hmQ : (m : ℚ) + 1 ≤ (L : ℚ) := by exact_mod_cast hmlt
  rw [Int.ceil_eq_iff]
  constructor
  · push_cast
    rw [lt_div_iff₀ hLQ]
    nlinarith [hcast, hm0]
  · push_cast
    rw [div_le_iff₀ hLQ, mul_comm]
    linarith [hcast, hmQ]

/-- A filter carrying status, search, and a location clause. -/
def c6Filter : IssueFilters :=
  { status := some "resolved"
    category := none
    priority := none
    sortBy := "createdAt"
    sortOrder := "desc"
    page := 1
    limit := 10
    search := none
    location := some { coordinates := [0, 0], radius := 5 } }

/-- Counterexample to C6 as stated: with a location filter provided, the
count query the route builds for pagination differs from the filter
predicate of the issues query — the location clause is dropped from the
count — so totalItems is not computed with every provided filter. -/
theorem count_query_counterexample :
    buildCountQuery c6Filter ≠ buildFindQuery c6Filter := by
  intro h
  have h2 := congrArg MongoIssueQuery.near h
  simp [buildCountQuery, buildFindQuery, c6Filter] at h2

/-- C6 (amended): the count query agrees with the issues-query filter
predicate on every clause except the location clause, which it omits; with
N the count-query result and L the positive clamped limit, the metadata
satisfies totalPages = ceil(N/L) (equal to (N+L-1)/L), hasNextPage iff
currentPage < totalPages, and hasPrevPage iff currentPage > 1. -/
theorem pagination_meta_correct (f : IssueFilters) (N L : ℕ) (page : Int)
    (hL : 0 < L) :
    buildCountQuery f = { buildFindQuery f with near := none } ∧
    (buildPaginationMeta N page (L : Int)).totalPages = (((N + L - 1) / L : ℕ) : ℤ) ∧
    ((buildPaginationMeta N page (L : Int)).hasNextPage = true ↔
      page < (buildPaginationMeta N page (L : Int)).totalPages) ∧
    ((buildPaginationMeta N page (L : Int)).hasPrevPage = true ↔ 1 < page) := by
  refine ⟨rfl, ?_, ?_, ?_⟩
  · show mathCeil ((N : ℚ) / (((L : ℕ) : ℤ) : ℚ)) = _
    rw [mathCeil, show (((L : ℕ) : ℤ) : ℚ) = ((L : ℕ) : ℚ) by push_cast; ring]
    exact ceil_natCast_div N L hL
  · simp [buildPaginationMeta]
  · simp [buildPaginationMeta]

/-- Witness for C6 (amended) at the spec's scenario of 12 matching items
with limit 5: three total pages. -/
theorem pagination_meta_correct_witness :
    (buildPaginationMeta 12 2 (5 : Int)).totalPages = 3 :=
  ((pagination_meta_correct c6Filter 12 5 2 (by decide)).2.1).trans (by norm_num)

end CivicIssues
